import Mathlib

/-!
Verification of the derivation and scheduling engine of the moneytracker
application (`src/src/App.jsx`) against its specification.

The JavaScript source is shallowly embedded:
* decimal amounts are modelled as exact rationals (`ℚ`); `Math.round` is
  `jround` (round half towards positive infinity, as JS does);
* ISO calendar dates are modelled structurally as year/month/day records
  (the source parses and re-renders `YYYY-MM-DD` strings; the environment
  is assumed to be UTC so that the local-time accessors agree with the
  UTC rendering);
* the JS `Date.setMonth` month-advance with day-of-month overflow rolling
  into the following month is modelled by `addMonthsJS`;
* JS objects used as finite maps keyed by the closed bank list are
  modelled as association lists; `Map` objects keyed by period strings
  are modelled as functions together with the insertion-ordered key list;
* `Array.prototype.sort` on the distinct `[key, value]` entries (which
  compares by the fixed-width period-key prefix of the stringified
  entries) is modelled by insertion sort over a character-wise string
  comparison;
* the random `uid()` identifiers are opaque unique tokens per the data
  model; installment ids are modelled by their generation index.
-/

namespace MoneyTracker

/-- Fixed enumerated bank list (`BANKS` in `App.jsx`). -/
def BANKS : List String :=
  ["UBL", "JS Bank", "Meezan Bank", "ABL", "NayaPay", "Easypaisa", "JazzCash"]

/-- Transaction kind, the `type` field (`'income' | 'expense'`). -/
inductive TxType where
  | income
  | expense
deriving DecidableEq, Repr

/-- Structural ISO calendar date (`YYYY-MM-DD`), month `1`..`12`. -/
structure Date where
  year : ℕ
  month : ℕ
  day : ℕ
deriving DecidableEq, Repr

/-- Transaction record: `{id, date, type, description, amount, bank, category}`. -/
structure Transaction where
  id : ℕ
  date : Date
  type : TxType
  description : String
  amount : ℚ
  bank : String
  category : String
deriving DecidableEq, Repr

/-- Strict lexicographic order on dates: chronological order of the
corresponding ISO strings. -/
def dateLt (a b : Date) : Prop :=
  a.year < b.year ∨ (a.year = b.year ∧
    (a.month < b.month ∨ (a.month = b.month ∧ a.day < b.day)))

instance : DecidableRel dateLt := by
  intro a b
  unfold dateLt
  infer_instance

/-- Gregorian leap-year test, as implemented by JS `Date`. -/
def isLeap (y : ℕ) : Bool :=
  y % 4 == 0 && (y % 100 != 0 || y % 400 == 0)

/-- Number of days in a month, as used by JS `Date` month arithmetic. -/
def daysInMonth (y m : ℕ) : ℕ :=
  if m = 2 then (if isLeap y then 29 else 28)
  else if m = 4 ∨ m = 6 ∨ m = 9 ∨ m = 11 then 30
  else 31

/-- JS `d.setMonth(d.getMonth() + k)` on a date `d`: the month index is
advanced by `k` and the day-of-month is kept; if the target month is too
short the date rolls over into the following month (e.g. Jan 31 plus one
month is Mar 2 or Mar 3). -/
def addMonthsJS (d : Date) (k : ℕ) : Date :=
  let t := d.month - 1 + k
  let y := d.year + t / 12
  let m := t % 12 + 1
  if d.day ≤ daysInMonth y m then ⟨y, m, d.day⟩
  else if m = 12 then ⟨y + 1, 1, d.day - daysInMonth y m⟩
  else ⟨y, m + 1, d.day - daysInMonth y m⟩

/-- JS `Math.round`: round half towards positive infinity. -/
def jround (q : ℚ) : ℤ := ⌊q + 1/2⌋

/-- Installment record: `{id, dueDate, amount, paid, paidDate}`.  The
random `uid()` is modelled by the generation index. -/
structure Installment where
  id : ℕ
  dueDate : Date
  amount : ℚ
  paid : Bool
  paidDate : Option Date
deriving DecidableEq, Repr

/-- Rounded per-installment amount:
`Math.round((amt / count) * 100) / 100` (App.jsx line 378). -/
def perAmount (amount : ℚ) (count : ℕ) : ℚ :=
  (jround (amount / count * 100) : ℚ) / 100

/-- The installment pushed in iteration `i` of the `generateSchedule`
loop (App.jsx lines 381-385): due `i+1` JS-months after the start, with
the rounded per-installment amount, unpaid. -/
def schedItem (amount : ℚ) (start : Date) (count : ℕ) (i : ℕ) :
    Installment :=
  { id := i, dueDate := addMonthsJS start (i + 1), amount := perAmount amount count,
    paid := false, paidDate := none }

/-- The `generateSchedule(amount, start, count)` function of `LoansView`
(App.jsx lines 376-390).  `count` installments are produced due `i+1`
JS-months after `start`, and the last installment's amount is adjusted
by the rounding residue (`Math.round((last + (amt - sum)) * 100) / 100`).
For `count = 0` the JS code reads `list[-1]` (undefined) and throws a
`TypeError`; this is modelled by `none`. -/
def generateSchedule (amount : ℚ) (start : Date) (count : ℕ) :
    Option (List Installment) :=
  let list : List Installment :=
    (List.range count).map (schedItem amount start count)
  match list.getLast? with
  | none => none
  | some last =>
    let sum : ℚ := list.foldl (fun s x => s + x.amount) 0
    some (list.dropLast ++
      [{ last with amount := (jround ((last.amount + (amount - sum)) * 100) : ℚ) / 100 }])

/-- The schedule produced by `createLoan` (App.jsx lines 360-374):
`Number(form.installments) > 0 ? generateSchedule(...) : []`, so a
non-positive installment count yields an empty schedule and
`generateSchedule` is never invoked for it. -/
def createLoanSchedule (amount : ℚ) (start : Date) (installments : ℤ) :
    Option (List Installment) :=
  if 0 < installments then generateSchedule amount start installments.toNat
  else some []

/-- Signed contribution of a transaction to a balance:
`(t.type === 'income' ? 1 : -1) * Number(t.amount)`. -/
def signedAmount (t : Transaction) : ℚ :=
  (if t.type = TxType.income then 1 else -1) * t.amount

/-- One step of the `bankSummaries` loop (App.jsx lines 46-53): skip the
transaction unless its bank is a key of the sums object, otherwise add
its signed amount to that bank's entry. -/
def addTx (sums : List (String × ℚ)) (t : Transaction) : List (String × ℚ) :=
  if sums.any (fun p => p.1 == t.bank) then
    sums.map (fun p => if p.1 == t.bank then (p.1, p.2 + signedAmount t) else p)
  else sums

/-- The `bankSummaries` derived value: an object with one entry per bank
of `BANKS`, initialised to `0` and accumulated over all transactions,
modelled as an association list. -/
def bankSummaries (txs : List Transaction) : List (String × ℚ) :=
  txs.foldl addTx (BANKS.map (fun b => (b, 0)))

/-- Grand totals record (App.jsx lines 88-94). -/
structure Totals where
  income : ℚ
  expense : ℚ
  net : ℚ
deriving DecidableEq, Repr

/-- The `totals` derived value: grand income and expense sums over the
whole collection, with `net = income - expense`. -/
def totals (txs : List Transaction) : Totals :=
  let p := txs.foldl
    (fun (acc : ℚ × ℚ) t =>
      if t.type = TxType.income then (acc.1 + t.amount, acc.2)
      else (acc.1, acc.2 + t.amount))
    (0, 0)
  { income := p.1, expense := p.2, net := p.1 - p.2 }

/-- The `monthKey` helper (App.jsx lines 15-18): renders the
zero-padded `YYYY-MM` period key of a date. -/
def monthKey (d : Date) : String :=
  toString d.year ++ "-" ++
    (if d.month < 10 then "0" ++ toString d.month else toString d.month)

/-- The `yearKey` helper (App.jsx line 19): the `YYYY` period key. -/
def yearKey (d : Date) : String := toString d.year

/-- One step of a time-bucketed aggregation loop
(`map.get(key)[t.type] += Number(t.amount)`): the income or expense
component of the bucket for the transaction's key is increased by its
amount. -/
def bumpBucket {κ : Type} [DecidableEq κ] (key : Transaction → κ)
    (m : κ → ℚ × ℚ) (t : Transaction) : κ → ℚ × ℚ :=
  fun k =>
    if k = key t then
      match t.type with
      | TxType.income => ((m k).1 + t.amount, (m k).2)
      | TxType.expense => ((m k).1, (m k).2 + t.amount)
    else m k

/-- The contents of a time-bucketed `Map`: for each key, the pair of the
accumulated income and expense sums (zero for untouched keys). -/
def bucketMap {κ : Type} [DecidableEq κ] (key : Transaction → κ)
    (txs : List Transaction) : κ → ℚ × ℚ :=
  txs.foldl (bumpBucket key) (fun _ => (0, 0))

/-- The insertion-ordered key list of a time-bucketed `Map`: keys in
order of first occurrence. -/
def bucketKeys {κ : Type} [DecidableEq κ] (key : Transaction → κ)
    (txs : List Transaction) : List κ :=
  txs.foldl (fun ks t => if key t ∈ ks then ks else ks ++ [key t]) []

/-- The per-month buckets of `monthlySavings` (App.jsx lines 68-76). -/
def monthlyMap (txs : List Transaction) : String → ℚ × ℚ :=
  bucketMap (fun t => monthKey t.date) txs

/-- The per-day buckets of `dailyTotals` (App.jsx lines 55-66). -/
def dailyMap (txs : List Transaction) : Date → ℚ × ℚ :=
  bucketMap (fun t => t.date) txs

/-- The per-year buckets of `yearlySavings` (App.jsx lines 78-86). -/
def yearlyMap (txs : List Transaction) : String → ℚ × ℚ :=
  bucketMap (fun t => yearKey t.date) txs

/-- Character-wise strict comparison of strings by code point, the order
underlying the JS default sort of the distinct fixed-width period keys. -/
def charListLt : List Char → List Char → Bool
  | [], [] => false
  | [], _ :: _ => true
  | _ :: _, [] => false
  | a :: as, b :: bs =>
    if a.toNat < b.toNat then true
    else if b.toNat < a.toNat then false
    else charListLt as bs

/-- Non-strict string comparison derived from `charListLt`. -/
def strLe (a b : String) : Bool := !(charListLt b.data a.data)

/-- One row of the `monthlySavings` derived value. -/
structure MonthRow where
  month : String
  income : ℚ
  expense : ℚ
  saving : ℚ
deriving DecidableEq, Repr

/-- The `monthlySavings` derived value (App.jsx lines 68-76): the month
buckets as rows `{month, income, expense, saving}`, sorted ascending by
the `YYYY-MM` key. -/
def monthlySavings (txs : List Transaction) : List MonthRow :=
  (List.insertionSort (fun a b => strLe a b = true)
      (bucketKeys (fun t => monthKey t.date) txs)).map
    (fun k =>
      let v := monthlyMap txs k
      { month := k, income := v.1, expense := v.2, saving := v.1 - v.2 })

/-- The `running` table of `BanksView` (App.jsx lines 311-319):
`bankTx` is the bank's transactions with the stored (newest-first) order
reversed; `rows` maps over `bankTx.slice().reverse()` accumulating the
signed balance, and the result is `rows.reverse()`. -/
def running (txs : List Transaction) (bank : String) :
    List (Transaction × ℚ) :=
  let bankTx := (txs.filter (fun t => t.bank == bank)).reverse
  let rows := (bankTx.reverse.foldl
    (fun (acc : ℚ × List (Transaction × ℚ)) t =>
      let bal := acc.1 + signedAmount t
      (bal, acc.2 ++ [(t, bal)]))
    (0, [])).2
  rows.reverse

/-- Loan record: `{id, person, amount, startDate, dueDate, installments,
schedule, notes}`. -/
structure Loan where
  id : ℕ
  person : String
  amount : ℚ
  startDate : Date
  dueDate : Option Date
  installments : ℤ
  notes : String
  schedule : List Installment
deriving DecidableEq, Repr

/-- The per-installment update of `toggleInstallment` (App.jsx line 132):
`({...s, paid: !s.paid, paidDate: !s.paid ? todayISO() : null})`. -/
def toggleSchedItem (instId : ℕ) (today : Date) (s : Installment) :
    Installment :=
  if s.id ≠ instId then s
  else { s with paid := !s.paid,
                paidDate := if !s.paid then some today else none }

/-- The per-loan update of `toggleInstallment` (App.jsx lines 130-133). -/
def toggleLoanItem (loanId instId : ℕ) (today : Date) (l : Loan) : Loan :=
  if l.id ≠ loanId then l
  else { l with schedule := l.schedule.map (toggleSchedItem instId today) }

/-- The `toggleInstallment` action (App.jsx lines 127-135) applied to one
loan collection (`prev[kind]`). -/
def toggleInstallment (loans : List Loan) (loanId instId : ℕ)
    (today : Date) : List Loan :=
  loans.map (toggleLoanItem loanId instId today)

/-- One row of the bank snapshot of the `Reports` view (App.jsx lines
474-476 and 524-543): `Object.entries(bankSummaries)` mapped to
`{bank, balance}` rows. -/
structure BankRow where
  bank : String
  balance : ℚ
deriving DecidableEq, Repr

/-- The `bankArray` of the `Reports` view: one row per entry of the
`bankSummaries` object. -/
def reportsBankArray (txs : List Transaction) : List BankRow :=
  (bankSummaries txs).map (fun p => { bank := p.1, balance := p.2 })

/-- Specification-side predicate (§8 of the spec): `d` is exactly `n`
calendar months after `base`, preserving the day-of-month. -/
def monthsAfter (base : Date) (n : ℕ) (d : Date) : Prop :=
  d.year * 12 + d.month = base.year * 12 + base.month + n ∧ d.day = base.day

instance (base : Date) (n : ℕ) (d : Date) : Decidable (monthsAfter base n d) := by
  unfold monthsAfter
  infer_instance

/-- Total income or expense accumulated for one bucket key by a
time-bucketed aggregation, expressed as a direct sum (used to
characterise the fold-based `bucketMap`). -/
def bucketSumBy {κ : Type} [DecidableEq κ] (key : Transaction → κ)
    (ty : TxType) (txs : List Transaction) (k : κ) : ℚ :=
  (txs.map (fun t => if key t = k ∧ t.type = ty then t.amount else 0)).sum

/-- Example transactions of spec §8 (monthly aggregation):
income 100 and expense 40 in January 2024, income 50 in February 2024. -/
def exMonthlyTxs : List Transaction :=
  [ { id := 1, date := ⟨2024, 1, 1⟩, type := TxType.income, description := "",
      amount := 100, bank := "UBL", category := "Salary" },
    { id := 2, date := ⟨2024, 1, 1⟩, type := TxType.expense, description := "",
      amount := 40, bank := "UBL", category := "Food" },
    { id := 3, date := ⟨2024, 2, 1⟩, type := TxType.income, description := "",
      amount := 50, bank := "UBL", category := "Salary" } ]

/-- Two same-bank transactions in the stored (newest-first) order:
income 2 inserted last, income 1 inserted first. -/
def exRunningTxs : List Transaction :=
  [ { id := 2, date := ⟨2024, 1, 2⟩, type := TxType.income, description := "",
      amount := 2, bank := "UBL", category := "Salary" },
    { id := 1, date := ⟨2024, 1, 1⟩, type := TxType.income, description := "",
      amount := 1, bank := "UBL", category := "Salary" } ]

/-- A single-transaction collection used as a concrete witness input. -/
def exBankTxs : List Transaction :=
  [ { id := 1, date := ⟨2024, 1, 1⟩, type := TxType.income, description := "",
      amount := 100, bank := "UBL", category := "Salary" } ]

/-- A transaction whose bank is outside the enumerated bank list. -/
def exOutsideTx : Transaction :=
  { id := 9, date := ⟨2024, 3, 5⟩, type := TxType.expense, description := "",
    amount := 7, bank := "HBL", category := "Misc" }

/-- Concrete unpaid installment used as a witness input. -/
def exInst1 : Installment := ⟨1, ⟨2024, 2, 15⟩, 500, false, none⟩

/-- Second concrete unpaid installment. -/
def exInst2 : Installment := ⟨2, ⟨2024, 3, 15⟩, 500, false, none⟩

/-- Concrete loan with a two-installment schedule. -/
def exLoan1 : Loan :=
  ⟨10, "Ali", 1000, ⟨2024, 1, 15⟩, none, 2, "", [exInst1, exInst2]⟩

/-- Concrete loan with an empty schedule and a different id. -/
def exLoan2 : Loan := ⟨11, "Sara", 200, ⟨2024, 1, 1⟩, none, 0, "", []⟩

/-- Concrete loan collection. -/
def exLoans : List Loan := [exLoan1, exLoan2]

/-- The schedule the spec's §8 example expects from
`generateSchedule(1000, "2024-01-15", 3)`: due dates `2024-02-15`,
`2024-03-15`, `2024-04-15` with amounts `333.33, 333.33, 333.34`. -/
def exSched3 : List Installment :=
  [ ⟨0, ⟨2024, 2, 15⟩, 333.33, false, none⟩,
    ⟨1, ⟨2024, 3, 15⟩, 333.33, false, none⟩,
    ⟨2, ⟨2024, 4, 15⟩, 333.34, false, none⟩ ]

/-! ## Structure of the generated schedule -/

/-- Folding `(s, x) => s + x.amount` is summing the amounts. -/
theorem foldl_add_amount (l : List Installment) (a : ℚ) :
    l.foldl (fun s x => s + x.amount) a = a + (l.map Installment.amount).sum := by
  induction l generalizing a with
  | nil => simp
  | cons x xs ih => simp [ih, add_assoc]

/-- All raw installments carry the rounded per-installment amount. -/
theorem amounts_map (p : ℚ) (start : Date) (n k : ℕ) :
    ((List.range k).map (schedItem p start n)).map Installment.amount =
      List.replicate k (perAmount p n) := by
  rw [List.map_map]
  have : (Installment.amount ∘ schedItem p start n) = fun _ => perAmount p n := by
    funext i
    rfl
  rw [this, List.map_const', List.length_range]

/-- Sum of the raw installment amounts is `count` times the rounded
per-installment amount. -/
theorem raw_sum (p : ℚ) (start : Date) (n k : ℕ) :
    ((List.range k).map (schedItem p start n)).foldl
        (fun s x => s + x.amount) 0 = (k : ℚ) * perAmount p n := by
  rw [foldl_add_amount, amounts_map]
  simp [List.sum_replicate, nsmul_eq_mul]

/-- Closed form of `generateSchedule` for a positive count. -/
theorem generateSchedule_succ (p : ℚ) (start : Date) (m : ℕ) :
    generateSchedule p start (m + 1) =
      some ((List.range m).map (schedItem p start (m + 1)) ++
        [{ schedItem p start (m + 1) m with
            amount := (jround ((perAmount p (m + 1) +
              (p - ((m : ℚ) + 1) * perAmount p (m + 1))) * 100) : ℚ) / 100 }]) := by
  have hlast : ((List.range (m + 1)).map (schedItem p start (m + 1))).getLast? =
      some (schedItem p start (m + 1) m) := by
    rw [List.range_succ, List.map_append]
    simp
  have hdrop : ((List.range (m + 1)).map (schedItem p start (m + 1))).dropLast =
      (List.range m).map (schedItem p start (m + 1)) := by
    rw [List.range_succ, List.map_append]
    simp
  have hsum : ((List.range (m + 1)).map (schedItem p start (m + 1))).foldl
      (fun s x => s + x.amount) 0 = ((m : ℚ) + 1) * perAmount p (m + 1) := by
    rw [raw_sum]
    push_cast
    ring
  simp only [generateSchedule, hlast, hsum, hdrop]
  rfl

/-- C2: for every principal `p`, start date and count `n ≥ 1`,
`generateSchedule(p, startDate, n)` returns exactly `n` installments,
each created with `paid = false` and `paidDate = null`. -/
theorem generateSchedule_length_fresh (p : ℚ) (start : Date) (n : ℕ)
    (hn : 1 ≤ n) :
    ∃ sched, generateSchedule p start n = some sched ∧ sched.length = n ∧
      ∀ s ∈ sched, s.paid = false ∧ s.paidDate = none := by
  obtain ⟨m, rfl⟩ : ∃ m, n = m + 1 := ⟨n - 1, by omega⟩
  refine ⟨_, generateSchedule_succ p start m, ?_, ?_⟩
  · simp
  · intro s hs
    rcases List.mem_append.mp hs with h | h
    · obtain ⟨i, _, rfl⟩ := List.mem_map.mp h
      exact ⟨rfl, rfl⟩
    · rw [List.mem_singleton.mp h]
      exact ⟨rfl, rfl⟩

/-- Rounding an exact integer changes nothing. -/
theorem jround_intCast (z : ℤ) : jround (z : ℚ) = z := by
  unfold jround
  rw [Int.floor_int_add]
  norm_num

/-- C1: sum conservation of the schedule generator.  For a principal `p`
expressible in currency minor units (`100 * p` is an integer) and any
count `n ≥ 1`, the installment amounts returned by
`generateSchedule(p, startDate, n)` sum to exactly `p`. -/
theorem generateSchedule_sum_conservation (p : ℚ) (start : Date) (n : ℕ)
    (hn : 1 ≤ n) (hp : ∃ P : ℤ, (P : ℚ) = 100 * p) :
    ∃ sched, generateSchedule p start n = some sched ∧
      (sched.map Installment.amount).sum = p := by
  obtain ⟨m, rfl⟩ : ∃ m, n = m + 1 := ⟨n - 1, by omega⟩
  obtain ⟨P, hP⟩ := hp
  refine ⟨_, generateSchedule_succ p start m, ?_⟩
  set c := jround (p / (m + 1 : ℕ) * 100) with hc
  have hper : perAmount p (m + 1) = (c : ℚ) / 100 := rfl
  have harg : (perAmount p (m + 1) +
      (p - ((m : ℚ) + 1) * perAmount p (m + 1))) * 100 = ((P - m * c : ℤ) : ℚ) := by
    rw [hper]
    push_cast
    rw [hP]
    ring
  rw [List.map_append, List.sum_append, amounts_map]
  simp only [List.map_cons, List.map_nil, List.sum_cons, List.sum_nil, add_zero]
  rw [harg, jround_intCast, List.sum_replicate, hper]
  push_cast
  rw [nsmul_eq_mul]
  linear_combination hP / 100

/-- Witness for C1 at `p = 1000`, start `2024-01-15`, `n = 3`. -/
theorem generateSchedule_sum_conservation_witness :
    (1 ≤ 3 ∧ ∃ P : ℤ, (P : ℚ) = 100 * 1000) ∧
      ∃ sched, generateSchedule 1000 ⟨2024, 1, 15⟩ 3 = some sched ∧
        (sched.map Installment.amount).sum = 1000 :=
  ⟨⟨by norm_num, ⟨100000, by norm_num⟩⟩,
    generateSchedule_sum_conservation 1000 ⟨2024, 1, 15⟩ 3 (by norm_num)
      ⟨100000, by norm_num⟩⟩

/-- Witness for C2 at `p = 1000`, start `2024-01-15`, `n = 3`. -/
theorem generateSchedule_length_fresh_witness :
    1 ≤ 3 ∧ ∃ sched, generateSchedule 1000 ⟨2024, 1, 15⟩ 3 = some sched ∧
      sched.length = 3 ∧ ∀ s ∈ sched, s.paid = false ∧ s.paidDate = none :=
  ⟨by norm_num, generateSchedule_length_fresh 1000 ⟨2024, 1, 15⟩ 3 (by norm_num)⟩

/-! ## Date arithmetic -/

/-- Every month length used by the date arithmetic lies in `[28, 31]`. -/
theorem daysInMonth_bounds (y m : ℕ) :
    28 ≤ daysInMonth y m ∧ daysInMonth y m ≤ 31 := by
  unfold daysInMonth
  split_ifs <;> omega

/-- The generator never produces an installment for a zero count: the JS
adjustment step faults on the empty list. -/
theorem generateSchedule_zero (p : ℚ) (start : Date) :
    generateSchedule p start 0 = none := rfl

/-- Advancing a date by one more JS month strictly increases it. -/
theorem addMonthsJS_succ_lt (d : Date) (k : ℕ) :
    dateLt (addMonthsJS d k) (addMonthsJS d (k + 1)) := by
  unfold addMonthsJS dateLt
  have h1 := daysInMonth_bounds (d.year + (d.month - 1 + k) / 12)
    ((d.month - 1 + k) % 12 + 1)
  have h2 := daysInMonth_bounds (d.year + (d.month - 1 + (k + 1)) / 12)
    ((d.month - 1 + (k + 1)) % 12 + 1)
  dsimp only
  split_ifs <;> dsimp only <;> omega

/-- Chronological order on dates is transitive. -/
theorem dateLt_trans : Transitive dateLt := by
  intro a b c hab hbc
  unfold dateLt at *
  omega

/-- Advancing a date by strictly more JS months strictly increases it. -/
theorem addMonthsJS_lt_of_lt (d : Date) (i j : ℕ) (h : i < j) :
    dateLt (addMonthsJS d i) (addMonthsJS d j) := by
  induction j with
  | zero => exact absurd h (Nat.not_lt_zero i)
  | succ n ih =>
    rcases Nat.lt_succ_iff_lt_or_eq.mp h with h' | h'
    · exact dateLt_trans (ih h') (addMonthsJS_succ_lt d n)
    · rw [h']
      exact addMonthsJS_succ_lt d n

/-- When the day-of-month is at most 28 the JS month advance never
overflows the target month. -/
theorem addMonthsJS_of_day_le (d : Date) (hday : d.day ≤ 28) (k : ℕ) :
    addMonthsJS d k =
      ⟨d.year + (d.month - 1 + k) / 12, (d.month - 1 + k) % 12 + 1, d.day⟩ := by
  unfold addMonthsJS
  have h1 := daysInMonth_bounds (d.year + (d.month - 1 + k) / 12)
    ((d.month - 1 + k) % 12 + 1)
  rw [if_pos (by omega)]

/-- When the day-of-month is at most 28 the JS month advance is exactly
a calendar-month advance. -/
theorem addMonthsJS_monthsAfter (d : Date) (hm : 1 ≤ d.month)
    (hday : d.day ≤ 28) (k : ℕ) : monthsAfter d k (addMonthsJS d k) := by
  rw [addMonthsJS_of_day_le d hday k]
  unfold monthsAfter
  dsimp only
  omega

/-- Due dates of a generated schedule, in order. -/
theorem generateSchedule_dueDates (p : ℚ) (start : Date) (m : ℕ)
    (sched : List Installment)
    (h : generateSchedule p start (m + 1) = some sched) :
    sched.map Installment.dueDate =
      (List.range (m + 1)).map (fun i => addMonthsJS start (i + 1)) := by
  rw [generateSchedule_succ] at h
  obtain rfl := (Option.some.injEq _ _).mp h.symm
  rw [List.map_append, List.map_map, List.range_succ, List.map_append]
  rfl

/-- C3 (counterexample to the universal claim): for the start date
`2024-01-31` the generated due dates are `2024-03-02` and `2024-03-31`
(JS month-overflow rollover), so the first installment is not due one
calendar month after the start and consecutive installments are not one
calendar month apart. -/
theorem generateSchedule_calendar_month_counterexample :
    ((generateSchedule 1000 ⟨2024, 1, 31⟩ 2).map
        (fun s => s.map Installment.dueDate)) =
      some [⟨2024, 3, 2⟩, ⟨2024, 3, 31⟩] ∧
    ¬ monthsAfter ⟨2024, 1, 31⟩ 1 ⟨2024, 3, 2⟩ ∧
    ¬ monthsAfter ⟨2024, 3, 2⟩ 1 ⟨2024, 3, 31⟩ := by
  refine ⟨?_, by decide, by decide⟩
  decide

/-- C3 (amended): the due dates of every generated schedule are strictly
increasing; when the start date's day-of-month is at most 28 (so the JS
month arithmetic never overflows) installment `i` is due exactly `i+1`
calendar months after the start date (hence consecutive installments are
one calendar month apart); and `generateSchedule(1000, "2024-01-15", 3)`
yields due dates `2024-02-15`, `2024-03-15`, `2024-04-15` with amounts
`333.33, 333.33, 333.34`. -/
theorem generateSchedule_dueDate_monotonicity :
    (∀ (p : ℚ) (start : Date) (n : ℕ) (sched : List Installment),
      generateSchedule p start n = some sched →
      (sched.map Installment.dueDate).Pairwise dateLt) ∧
    (∀ (p : ℚ) (start : Date) (n : ℕ) (sched : List Installment),
      generateSchedule p start n = some sched →
      1 ≤ start.month → start.day ≤ 28 →
      ∀ i (hi : i < sched.length),
        monthsAfter start (i + 1) (sched[i].dueDate)) ∧
    generateSchedule 1000 ⟨2024, 1, 15⟩ 3 = some exSched3 := by
  refine ⟨?_, ?_, ?_⟩
  · intro p start n sched h
    cases n with
    | zero =>
      rw [generateSchedule_zero] at h
      exact absurd h (by simp)
    | succ m =>
      rw [generateSchedule_dueDates p start m sched h]
      exact List.Pairwise.map _
        (fun a b hab => addMonthsJS_lt_of_lt start (a + 1) (b + 1) (by omega))
        (List.pairwise_lt_range (m + 1))
  · intro p start n sched h hm hday i hi
    cases n with
    | zero =>
      rw [generateSchedule_zero] at h
      exact absurd h (by simp)
    | succ m =>
      have hd := generateSchedule_dueDates p start m sched h
      have hi' : i < (sched.map Installment.dueDate).length := by
        simpa using hi
      have hmap : (sched.map Installment.dueDate)[i] =
          addMonthsJS start (i + 1) := by
        rw [List.getElem_of_eq hd hi']
        simp
      rw [List.getElem_map] at hmap
      rw [hmap]
      exact addMonthsJS_monthsAfter start hm hday (i + 1)
  · rw [show (3 : ℕ) = 2 + 1 from rfl, generateSchedule_succ]
    have hper : perAmount 1000 (2 + 1) = 333.33 := by
      unfold perAmount jround
      norm_num
    have hadj : (jround ((perAmount 1000 (2 + 1) +
        (1000 - (((2 : ℕ) : ℚ) + 1) * perAmount 1000 (2 + 1))) * 100) : ℚ) / 100 =
        333.34 := by
      rw [hper]
      unfold jround
      norm_num
    rw [hadj]
    have hd1 : addMonthsJS ⟨2024, 1, 15⟩ 1 = ⟨2024, 2, 15⟩ := by decide
    have hd2 : addMonthsJS ⟨2024, 1, 15⟩ 2 = ⟨2024, 3, 15⟩ := by decide
    have hd3 : addMonthsJS ⟨2024, 1, 15⟩ 3 = ⟨2024, 4, 15⟩ := by decide
    simp [exSched3, schedItem, List.range_succ, hper, hd1, hd2, hd3]

/-- Witness for the amended C3: the concrete schedule of the example has
strictly increasing due dates, obtained by instantiating the universal
part at the example input. -/
theorem generateSchedule_dueDate_monotonicity_witness :
    generateSchedule 1000 ⟨2024, 1, 15⟩ 3 = some exSched3 ∧
      (exSched3.map Installment.dueDate).Pairwise dateLt :=
  ⟨generateSchedule_dueDate_monotonicity.2.2,
    generateSchedule_dueDate_monotonicity.1 1000 ⟨2024, 1, 15⟩ 3 exSched3
      generateSchedule_dueDate_monotonicity.2.2⟩

/-! ## Loan creation and installment toggling -/

/-- C7 (counterexample to the fail-fast claim): creating a loan with an
installment count of `0` does not signal any error; it silently yields a
loan with an empty schedule. -/
theorem createLoan_zero_count_counterexample :
    createLoanSchedule 100 ⟨2024, 1, 15⟩ 0 = some [] ∧
      createLoanSchedule 100 ⟨2024, 1, 15⟩ 0 ≠ none := by
  refine ⟨by decide, by decide⟩

/-- C7 (amended): at the loan-creation layer a non-positive installment
count is silently handled by attaching an empty schedule (no error is
signalled); `generateSchedule` itself is only invoked with positive
counts, and a direct invocation with count `0` would fault. -/
theorem createLoan_nonpositive_count (p : ℚ) (start : Date) (c : ℤ)
    (hc : c ≤ 0) :
    createLoanSchedule p start c = some [] ∧
      generateSchedule p start 0 = none := by
  constructor
  · unfold createLoanSchedule
    rw [if_neg (by omega)]
  · exact generateSchedule_zero p start

/-- Witness for the amended C7 at count `0`. -/
theorem createLoan_nonpositive_count_witness :
    (0 : ℤ) ≤ 0 ∧ (createLoanSchedule 100 ⟨2024, 1, 15⟩ 0 = some [] ∧
      generateSchedule 100 ⟨2024, 1, 15⟩ 0 = none) :=
  ⟨by decide, createLoan_nonpositive_count 100 ⟨2024, 1, 15⟩ 0 (by decide)⟩

/-- C9: toggling an installment by id flips only that installment's
`paid`/`paidDate` fields (unpaid to paid sets `paid = true` and stamps
the current date; toggling again sets `paid = false` and clears the
date), while every other installment, every other loan field and every
other loan are unchanged. -/
theorem toggleInstallment_frame (loanId instId : ℕ) (today : Date) :
    (∀ l : Loan, l.id ≠ loanId → toggleLoanItem loanId instId today l = l) ∧
    (∀ l : Loan, l.id = loanId →
      toggleLoanItem loanId instId today l =
        { l with schedule := l.schedule.map (toggleSchedItem instId today) }) ∧
    (∀ s : Installment, s.id ≠ instId → toggleSchedItem instId today s = s) ∧
    (∀ s : Installment, s.id = instId → s.paid = false →
      toggleSchedItem instId today s =
        { s with paid := true, paidDate := some today }) ∧
    (∀ (today2 : Date) (s : Installment), s.id = instId → s.paid = false →
      (toggleSchedItem instId today2 (toggleSchedItem instId today s)).paid
          = false ∧
      (toggleSchedItem instId today2 (toggleSchedItem instId today s)).paidDate
          = none) ∧
    (∀ loans : List Loan,
      (toggleInstallment loans loanId instId today).length = loans.length ∧
      ∀ l ∈ loans, l.id ≠ loanId →
        l ∈ toggleInstallment loans loanId instId today) := by
  refine ⟨?_, ?_, ?_, ?_, ?_, ?_⟩
  · intro l h
    unfold toggleLoanItem
    rw [if_pos h]
  · intro l h
    unfold toggleLoanItem
    rw [if_neg (not_not_intro h)]
  · intro s h
    unfold toggleSchedItem
    rw [if_pos h]
  · intro s h hp
    unfold toggleSchedItem
    rw [if_neg (not_not_intro h)]
    simp [hp]
  · intro today2 s h hp
    constructor <;> simp [toggleSchedItem, h, hp]
  · intro loans
    constructor
    · simp [toggleInstallment]
    · intro l hl hne
      have h1 : toggleLoanItem loanId instId today l = l := by
        unfold toggleLoanItem
        rw [if_pos hne]
      have h2 : toggleLoanItem loanId instId today l ∈
          toggleInstallment loans loanId instId today :=
        List.mem_map_of_mem _ hl
      rwa [h1] at h2

/-- Witness for C9: toggling the unpaid installment `exInst1` (id 1) of
the concrete loan marks it paid and stamps the given date. -/
theorem toggleInstallment_frame_witness :
    exInst1.id = 1 ∧ exInst1.paid = false ∧
      toggleSchedItem 1 ⟨2024, 5, 1⟩ exInst1 =
        { exInst1 with paid := true, paidDate := some ⟨2024, 5, 1⟩ } :=
  ⟨rfl, rfl,
    (toggleInstallment_frame 10 1 ⟨2024, 5, 1⟩).2.2.2.1 exInst1 rfl rfl⟩

/-! ## String comparison order -/

/-- The character-wise strict order is asymmetric. -/
theorem charListLt_asymm : ∀ x y : List Char,
    charListLt x y = true → charListLt y x = false := by
  intro x
  induction x with
  | nil =>
    intro y h
    cases y with
    | nil => simp [charListLt] at h
    | cons b bs => rfl
  | cons a as ih =>
    intro y h
    cases y with
    | nil => simp [charListLt] at h
    | cons b bs =>
      unfold charListLt at h ⊢
      split_ifs at h ⊢ <;>
        first
          | rfl
          | omega
          | exact ih bs h

/-- Transitivity of the complement of the character-wise strict order. -/
theorem charListLt_false_trans : ∀ x y z : List Char,
    charListLt x y = false → charListLt y z = false →
      charListLt x z = false := by
  intro x
  induction x with
  | nil =>
    intro y z hxy hyz
    cases y <;> cases z <;> simp_all [charListLt]
  | cons a as ih =>
    intro y z hxy hyz
    cases y with
    | nil =>
      cases z <;> simp_all [charListLt]
    | cons b bs =>
      cases z with
      | nil => rfl
      | cons c cs =>
        unfold charListLt at hxy hyz ⊢
        split_ifs at hxy hyz ⊢ <;>
          first
            | rfl
            | omega
            | exact ih bs cs hxy hyz

/-- The string comparison used for period keys is total. -/
theorem strLe_total (a b : String) : strLe a b = true ∨ strLe b a = true := by
  unfold strLe
  by_cases h : charListLt b.data a.data = true
  · right
    rw [charListLt_asymm b.data a.data h]
    rfl
  · left
    rw [Bool.not_eq_true] at h
    rw [h]
    rfl

/-- The string comparison used for period keys is transitive. -/
theorem strLe_trans (a b c : String) (hab : strLe a b = true)
    (hbc : strLe b c = true) : strLe a c = true := by
  unfold strLe at *
  rw [Bool.not_eq_true'] at hab hbc ⊢
  exact charListLt_false_trans c.data b.data a.data hbc hab

/-! ## Bank-balance aggregation -/

/-- `addTx` never changes the key list of the sums object. -/
theorem addTx_keys (sums : List (String × ℚ)) (t : Transaction) :
    (addTx sums t).map Prod.fst = sums.map Prod.fst := by
  unfold addTx
  split
  · rw [List.map_map]
    apply List.map_congr_left
    intro p _
    dsimp only [Function.comp]
    split <;> rfl
  · rfl

/-- A transaction whose bank is not among the keys leaves the sums
object untouched. -/
theorem addTx_not_mem (sums : List (String × ℚ)) (t : Transaction)
    (h : t.bank ∉ sums.map Prod.fst) : addTx sums t = sums := by
  unfold addTx
  rw [if_neg]
  rw [List.any_eq_true]
  rintro ⟨p, hp, hbe⟩
  exact h (List.mem_map.mpr ⟨p, hp, beq_iff_eq.mp hbe⟩)

/-- Updating the (unique, by nodup keys) entry of the transaction's bank
adds the signed amount to the total of all entries. -/
theorem vsum_upd (t : Transaction) : ∀ sums : List (String × ℚ),
    (sums.map Prod.fst).Nodup → t.bank ∈ sums.map Prod.fst →
    ((sums.map (fun p =>
        if p.1 == t.bank then (p.1, p.2 + signedAmount t) else p)).map
      Prod.snd).sum = (sums.map Prod.snd).sum + signedAmount t := by
  intro sums
  induction sums with
  | nil =>
    intro _ h
    simp at h
  | cons p rest ih =>
    intro hnd hmem
    have hnd1 : p.1 ∉ rest.map Prod.fst := by
      rw [List.map_cons] at hnd
      exact (List.nodup_cons.mp hnd).1
    have hnd2 : (rest.map Prod.fst).Nodup := by
      rw [List.map_cons] at hnd
      exact (List.nodup_cons.mp hnd).2
    by_cases hb : p.1 = t.bank
    · have hrest : rest.map (fun q =>
          if q.1 == t.bank then (q.1, q.2 + signedAmount t) else q) = rest := by
        have hfix : ∀ q ∈ rest, (fun q =>
            if q.1 == t.bank then (q.1, q.2 + signedAmount t) else q) q =
              id q := by
          intro q hq
          have hq1 : q.1 ≠ t.bank := by
            rw [← hb]
            intro he
            exact hnd1 (List.mem_map.mpr ⟨q, hq, he⟩)
          simp [hq1]
        rw [List.map_congr_left hfix, List.map_id]
      simp only [List.map_cons, List.sum_cons, hrest]
      rw [if_pos (by simp [hb])]
      dsimp only
      ring
    · have hmem' : t.bank ∈ rest.map Prod.fst := by
        rw [List.map_cons] at hmem
        rcases List.mem_cons.mp hmem with h | h
        · exact absurd h.symm hb
        · exact h
      simp only [List.map_cons, List.sum_cons]
      rw [if_neg (by simp [hb])]
      rw [ih hnd2 hmem']
      ring

/-- Adding one matched transaction adds its signed amount to the total
of all bank entries. -/
theorem vsum_addTx (sums : List (String × ℚ)) (t : Transaction)
    (hnd : (sums.map Prod.fst).Nodup) (hmem : t.bank ∈ sums.map Prod.fst) :
    ((addTx sums t).map Prod.snd).sum =
      (sums.map Prod.snd).sum + signedAmount t := by
  unfold addTx
  rw [if_pos]
  · exact vsum_upd t sums hnd hmem
  · rw [List.any_eq_true]
    obtain ⟨p, hp, hpe⟩ := List.mem_map.mp hmem
    exact ⟨p, hp, beq_iff_eq.mpr hpe⟩

/-- Folding the bank loop over any sums object with distinct keys adds
the signed amounts of all key-matched transactions. -/
theorem foldl_addTx_vsum : ∀ (txs : List Transaction)
    (sums : List (String × ℚ)), (sums.map Prod.fst).Nodup →
    (∀ t ∈ txs, t.bank ∈ sums.map Prod.fst) →
    ((txs.foldl addTx sums).map Prod.snd).sum =
      (sums.map Prod.snd).sum + (txs.map signedAmount).sum := by
  intro txs
  induction txs with
  | nil =>
    intro sums _ _
    simp
  | cons t rest ih =>
    intro sums hnd hall
    rw [List.foldl_cons]
    have hkeys : (addTx sums t).map Prod.fst = sums.map Prod.fst :=
      addTx_keys sums t
    have hmem : t.bank ∈ sums.map Prod.fst := hall t (List.mem_cons_self t rest)
    rw [ih (addTx sums t) (by rw [hkeys]; exact hnd)
      (fun u hu => by rw [hkeys]; exact hall u (List.mem_cons_of_mem t hu))]
    rw [vsum_addTx sums t hnd hmem]
    simp only [List.map_cons, List.sum_cons]
    ring

/-- The key list of the folded sums object never changes. -/
theorem foldl_addTx_keys : ∀ (txs : List Transaction)
    (sums : List (String × ℚ)),
    (txs.foldl addTx sums).map Prod.fst = sums.map Prod.fst := by
  intro txs
  induction txs with
  | nil =>
    intro sums
    rfl
  | cons t rest ih =>
    intro sums
    rw [List.foldl_cons, ih, addTx_keys]

/-- The enumerated bank list has no duplicates. -/
theorem BANKS_nodup : BANKS.Nodup := by decide

/-- The key list of `bankSummaries` is exactly `BANKS`, in order. -/
theorem bankSummaries_keys (txs : List Transaction) :
    (bankSummaries txs).map Prod.fst = BANKS := by
  unfold bankSummaries
  rw [foldl_addTx_keys]
  decide

/-- The pair folded by `totals` accumulates the income and expense sums
componentwise. -/
theorem totals_foldl (txs : List Transaction) : ∀ a : ℚ × ℚ,
    txs.foldl (fun (acc : ℚ × ℚ) t =>
        if t.type = TxType.income then (acc.1 + t.amount, acc.2)
        else (acc.1, acc.2 + t.amount)) a =
      (a.1 + (txs.map (fun t =>
          if t.type = TxType.income then t.amount else 0)).sum,
       a.2 + (txs.map (fun t =>
          if t.type = TxType.income then 0 else t.amount)).sum) := by
  induction txs with
  | nil =>
    intro a
    simp
  | cons t rest ih =>
    intro a
    rw [List.foldl_cons, ih]
    by_cases ht : t.type = TxType.income <;>
      simp [ht, add_assoc]

/-- Signed amounts split as income part minus expense part. -/
theorem sum_signed_split (txs : List Transaction) :
    (txs.map signedAmount).sum =
      (txs.map (fun t =>
        if t.type = TxType.income then t.amount else 0)).sum -
      (txs.map (fun t =>
        if t.type = TxType.income then 0 else t.amount)).sum := by
  induction txs with
  | nil => simp
  | cons t rest ih =>
    simp only [List.map_cons, List.sum_cons, ih]
    by_cases ht : t.type = TxType.income <;>
      simp [signedAmount, ht] <;> ring

/-- The grand net is the sum of the signed amounts. -/
theorem totals_net (txs : List Transaction) :
    (totals txs).net = (txs.map signedAmount).sum := by
  unfold totals
  rw [totals_foldl]
  dsimp only
  rw [sum_signed_split]
  ring

/-- C4: balance conservation.  When every transaction's bank belongs to
the enumerated bank list, the per-bank balances of `bankSummaries` sum
to the `net` of the grand `totals`. -/
theorem bank_balance_conservation (txs : List Transaction)
    (h : ∀ t ∈ txs, t.bank ∈ BANKS) :
    ((bankSummaries txs).map Prod.snd).sum = (totals txs).net := by
  unfold bankSummaries
  have hkeys : ((BANKS.map fun b => (b, (0 : ℚ))).map Prod.fst) = BANKS := by
    decide
  rw [foldl_addTx_vsum txs _ (by rw [hkeys]; exact BANKS_nodup)
    (fun t ht => by rw [hkeys]; exact h t ht)]
  rw [totals_net]
  have hzero : ((BANKS.map fun b => (b, (0 : ℚ))).map Prod.snd).sum = 0 := by
    rw [List.map_map]
    rw [show (Prod.snd ∘ fun b : String => (b, (0 : ℚ))) = fun _ => (0 : ℚ) from rfl]
    rw [List.map_const', List.sum_replicate, smul_zero]
  rw [hzero, zero_add]

/-- Witness for C4 on a one-transaction collection. -/
theorem bank_balance_conservation_witness :
    (∀ t ∈ exBankTxs, t.bank ∈ BANKS) ∧
      ((bankSummaries exBankTxs).map Prod.snd).sum = (totals exBankTxs).net :=
  ⟨by decide, bank_balance_conservation exBankTxs (by decide)⟩

/-- A zero entry for a bank no transaction references survives one
`addTx` step. -/
theorem mem_addTx (sums : List (String × ℚ)) (t : Transaction) (b : String)
    (hne : t.bank ≠ b) (h : (b, (0 : ℚ)) ∈ sums) :
    (b, (0 : ℚ)) ∈ addTx sums t := by
  unfold addTx
  split
  · have hupd : (fun p : String × ℚ =>
        if p.1 == t.bank then (p.1, p.2 + signedAmount t) else p) (b, 0) =
          (b, 0) := by
      have hc : ¬((b, (0 : ℚ)).1 == t.bank) = true := by
        simp only [beq_iff_eq]
        exact fun he => hne he.symm
      dsimp only
      rw [if_neg hc]
    exact hupd ▸ List.mem_map_of_mem _ h
  · exact h

/-- A zero entry for a bank no transaction references survives the whole
fold. -/
theorem foldl_addTx_zero_mem : ∀ (txs : List Transaction)
    (sums : List (String × ℚ)) (b : String), (∀ t ∈ txs, t.bank ≠ b) →
    (b, (0 : ℚ)) ∈ sums → (b, (0 : ℚ)) ∈ txs.foldl addTx sums := by
  intro txs
  induction txs with
  | nil =>
    intro sums b _ h
    exact h
  | cons t rest ih =>
    intro sums b hall h
    rw [List.foldl_cons]
    exact ih (addTx sums t) b (fun u hu => hall u (List.mem_cons_of_mem t hu))
      (mem_addTx sums t b (hall t (List.mem_cons_self t rest)) h)

/-- C10: the per-bank balance object always has exactly one entry per
configured bank (in the configured order); a bank referenced by no
transaction keeps its zero entry; the empty collection maps every bank
to `0`; and the report's bank snapshot has one row per configured
bank. -/
theorem bankSummaries_complete :
    (∀ txs : List Transaction, (bankSummaries txs).map Prod.fst = BANKS) ∧
    (∀ (txs : List Transaction) (b : String), b ∈ BANKS →
      (∀ t ∈ txs, t.bank ≠ b) → (b, (0 : ℚ)) ∈ bankSummaries txs) ∧
    bankSummaries [] = BANKS.map (fun b => (b, 0)) ∧
    (∀ txs : List Transaction,
      (reportsBankArray txs).length = BANKS.length) := by
  refine ⟨bankSummaries_keys, ?_, rfl, ?_⟩
  · intro txs b hb hall
    unfold bankSummaries
    exact foldl_addTx_zero_mem txs _ b hall
      (List.mem_map_of_mem (fun b => (b, 0)) hb)
  · intro txs
    unfold reportsBankArray
    rw [List.length_map]
    have h := congrArg List.length (bankSummaries_keys txs)
    rw [List.length_map] at h
    exact h

/-- Witness for C10: after the example transactions (all on UBL), the
untouched bank ABL still has its zero entry. -/
theorem bankSummaries_complete_witness :
    ("ABL" ∈ BANKS ∧ ∀ t ∈ exMonthlyTxs, t.bank ≠ "ABL") ∧
      ("ABL", (0 : ℚ)) ∈ bankSummaries exMonthlyTxs :=
  ⟨⟨by decide, by decide⟩,
    bankSummaries_complete.2.1 exMonthlyTxs "ABL" (by decide) (by decide)⟩

/-! ## Time-bucketed aggregation -/

/-- Characterisation of the bucket fold: each bucket holds the income
and expense sums of its key, on top of the starting map. -/
theorem bucketMap_foldl {κ : Type} [DecidableEq κ] (key : Transaction → κ) :
    ∀ (txs : List Transaction) (m : κ → ℚ × ℚ) (k : κ),
    (txs.foldl (bumpBucket key) m) k =
      ((m k).1 + bucketSumBy key TxType.income txs k,
       (m k).2 + bucketSumBy key TxType.expense txs k) := by
  intro txs
  induction txs with
  | nil =>
    intro m k
    simp [bucketSumBy]
  | cons t rest ih =>
    intro m k
    rw [List.foldl_cons, ih]
    unfold bucketSumBy
    simp only [List.map_cons, List.sum_cons]
    unfold bumpBucket
    by_cases hk : k = key t
    · cases htype : t.type <;> simp [hk, htype, add_assoc]
    · have hk' : ¬(key t = k) := fun he => hk he.symm
      simp [hk, hk']

/-- Value form of a bucket map. -/
theorem bucketMap_eval {κ : Type} [DecidableEq κ] (key : Transaction → κ)
    (txs : List Transaction) (k : κ) :
    bucketMap key txs k =
      (bucketSumBy key TxType.income txs k,
       bucketSumBy key TxType.expense txs k) := by
  unfold bucketMap
  rw [bucketMap_foldl]
  simp

/-- Prepending a transaction adds its amount to the total of its own
bucket. -/
theorem bucketMap_cons_total {κ : Type} [DecidableEq κ]
    (key : Transaction → κ) (t : Transaction) (txs : List Transaction) :
    (bucketMap key (t :: txs) (key t)).1 +
        (bucketMap key (t :: txs) (key t)).2 =
      (bucketMap key txs (key t)).1 + (bucketMap key txs (key t)).2 +
        t.amount := by
  rw [bucketMap_eval, bucketMap_eval]
  unfold bucketSumBy
  simp only [List.map_cons, List.sum_cons]
  cases htype : t.type <;> simp [htype] <;> ring

/-- C6: a transaction whose bank is outside the enumerated bank list is
silently excluded from the per-bank balances (no error), yet still
contributes its amount to the grand totals and to the daily, monthly and
yearly buckets. -/
theorem unmatched_bank_policy (txs : List Transaction) (t : Transaction)
    (hb : t.bank ∉ BANKS) :
    bankSummaries (t :: txs) = bankSummaries txs ∧
    (totals (t :: txs)).income = (totals txs).income +
      (if t.type = TxType.income then t.amount else 0) ∧
    (totals (t :: txs)).expense = (totals txs).expense +
      (if t.type = TxType.income then 0 else t.amount) ∧
    (monthlyMap (t :: txs) (monthKey t.date)).1 +
        (monthlyMap (t :: txs) (monthKey t.date)).2 =
      (monthlyMap txs (monthKey t.date)).1 +
        (monthlyMap txs (monthKey t.date)).2 + t.amount ∧
    (dailyMap (t :: txs) t.date).1 + (dailyMap (t :: txs) t.date).2 =
      (dailyMap txs t.date).1 + (dailyMap txs t.date).2 + t.amount ∧
    (yearlyMap (t :: txs) (yearKey t.date)).1 +
        (yearlyMap (t :: txs) (yearKey t.date)).2 =
      (yearlyMap txs (yearKey t.date)).1 +
        (yearlyMap txs (yearKey t.date)).2 + t.amount := by
  refine ⟨?_, ?_, ?_, ?_, ?_, ?_⟩
  · unfold bankSummaries
    rw [List.foldl_cons, addTx_not_mem]
    rw [show ((BANKS.map fun b => (b, (0 : ℚ))).map Prod.fst) = BANKS by decide]
    exact hb
  · unfold totals
    rw [totals_foldl, totals_foldl]
    dsimp only
    simp only [List.map_cons, List.sum_cons]
    by_cases ht : t.type = TxType.income <;> simp [ht] <;> ring
  · unfold totals
    rw [totals_foldl, totals_foldl]
    dsimp only
    simp only [List.map_cons, List.sum_cons]
    by_cases ht : t.type = TxType.income <;> simp [ht] <;> ring
  · exact bucketMap_cons_total (fun u => monthKey u.date) t txs
  · exact bucketMap_cons_total (fun u => u.date) t txs
  · exact bucketMap_cons_total (fun u => yearKey u.date) t txs

/-- Witness for C6: the HBL transaction (bank outside the list) leaves
the per-bank balances unchanged. -/
theorem unmatched_bank_policy_witness :
    exOutsideTx.bank ∉ BANKS ∧
      bankSummaries (exOutsideTx :: exBankTxs) = bankSummaries exBankTxs :=
  ⟨by decide, (unmatched_bank_policy exBankTxs exOutsideTx (by decide)).1⟩

/-- The month fields of the monthly rows are exactly the sorted period
keys. -/
theorem monthlySavings_month_map (txs : List Transaction) :
    (monthlySavings txs).map MonthRow.month =
      List.insertionSort (fun a b => strLe a b = true)
        (bucketKeys (fun t => monthKey t.date) txs) := by
  unfold monthlySavings
  generalize List.insertionSort (fun a b => strLe a b = true)
      (bucketKeys (fun t => monthKey t.date) txs) = l
  induction l with
  | nil => rfl
  | cons k rest ih =>
    rw [List.map_cons, List.map_cons, ih]

/-- C8: monthly aggregation.  The spec's example input produces exactly
the expected rows; in general the rows are in ascending period-key
order, and each row carries the income and expense sums of its calendar
month with `saving = income - expense`. -/
theorem monthlySavings_spec :
    monthlySavings exMonthlyTxs =
      [ ⟨"2024-01", 100, 40, 60⟩, ⟨"2024-02", 50, 0, 50⟩ ] ∧
    (∀ txs : List Transaction,
      ((monthlySavings txs).map MonthRow.month).Pairwise
        (fun a b => strLe a b = true)) ∧
    (∀ (txs : List Transaction) (r : MonthRow), r ∈ monthlySavings txs →
      r.income = bucketSumBy (fun t => monthKey t.date) TxType.income txs
        r.month ∧
      r.expense = bucketSumBy (fun t => monthKey t.date) TxType.expense txs
        r.month ∧
      r.saving = r.income - r.expense) := by
  refine ⟨?_, ?_, ?_⟩
  · have hkeys : List.insertionSort (fun a b => strLe a b = true)
        (bucketKeys (fun t => monthKey t.date) exMonthlyTxs) =
          ["2024-01", "2024-02"] := by decide
    unfold monthlySavings
    rw [hkeys]
    have h1 : monthlyMap exMonthlyTxs "2024-01" = (100, 40) := by
      unfold monthlyMap
      rw [bucketMap_eval]
      unfold bucketSumBy
      simp +decide [exMonthlyTxs]
    have h2 : monthlyMap exMonthlyTxs "2024-02" = (50, 0) := by
      unfold monthlyMap
      rw [bucketMap_eval]
      unfold bucketSumBy
      simp +decide [exMonthlyTxs]
    simp only [List.map_cons, List.map_nil, h1, h2]
    norm_num
  · intro txs
    haveI inst1 : IsTotal String (fun a b => strLe a b = true) := ⟨strLe_total⟩
    haveI inst2 : IsTrans String (fun a b => strLe a b = true) := ⟨strLe_trans⟩
    rw [monthlySavings_month_map]
    exact List.sorted_insertionSort _ _
  · intro txs r hr
    unfold monthlySavings at hr
    obtain ⟨k, hk, rfl⟩ := List.mem_map.mp hr
    refine ⟨?_, ?_, rfl⟩
    · show (monthlyMap txs k).1 = bucketSumBy (fun t => monthKey t.date)
        TxType.income txs k
      unfold monthlyMap
      rw [bucketMap_eval (fun t => monthKey t.date) txs k]
    · show (monthlyMap txs k).2 = bucketSumBy (fun t => monthKey t.date)
        TxType.expense txs k
      unfold monthlyMap
      rw [bucketMap_eval (fun t => monthKey t.date) txs k]

/-- Witness for C8: the first example row indeed belongs to the output
and satisfies the per-row aggregation contract. -/
theorem monthlySavings_spec_witness :
    (⟨"2024-01", 100, 40, 60⟩ : MonthRow) ∈ monthlySavings exMonthlyTxs ∧
      (⟨"2024-01", 100, 40, 60⟩ : MonthRow).saving =
        (⟨"2024-01", 100, 40, 60⟩ : MonthRow).income -
          (⟨"2024-01", 100, 40, 60⟩ : MonthRow).expense := by
  have hmem : (⟨"2024-01", 100, 40, 60⟩ : MonthRow) ∈
      monthlySavings exMonthlyTxs := by
    rw [monthlySavings_spec.1]
    exact List.mem_cons_self _ _
  exact ⟨hmem,
    (monthlySavings_spec.2.2 exMonthlyTxs ⟨"2024-01", 100, 40, 60⟩ hmem).2.2⟩

/-! ## Running balances -/

/-- Evaluation of the running-balance table on two UBL transactions
(stored newest-first: income 2 inserted after income 1): the produced
rows are chronological, but the balance is accumulated over the
newest-first traversal, so the chronologically last entry
carries only its own signed amount (2) while the bank balance is 3. -/
theorem running_last_entry_bug :
    (running exRunningTxs "UBL").map (fun r => (r.1.id, r.2)) =
      [(1, (3 : ℚ)), (2, (2 : ℚ))] ∧
    List.lookup "UBL" (bankSummaries exRunningTxs) = some 3 ∧
    (running exRunningTxs "UBL").getLast?.map Prod.snd = some 2 ∧
    (2 : ℚ) ≠ 3 := by
  have h1 : running exRunningTxs "UBL" =
      [(exRunningTxs[1], (3 : ℚ)), (exRunningTxs[0], (2 : ℚ))] := by
    unfold running exRunningTxs
    simp +decide [signedAmount]
    norm_num
  refine ⟨?_, ?_, ?_, by norm_num⟩
  · rw [h1]
    decide
  · unfold bankSummaries exRunningTxs BANKS addTx
    simp +decide [signedAmount, List.lookup]
    norm_num
  · rw [h1]
    decide

end MoneyTracker
